import Mathlib

/-!
Verification of the ascii-rider physics core (physics.py, track.py).

The embedding models the rider integrator, the collision resolver and the
track editor over the real numbers: Python float fields become `ℝ`, the
per-tick mutation of `Rider.update` becomes a pure state-to-state function,
and `check_collision` returning `None` or a triple becomes an `Option`.
Field and function names follow the source.
-/

open Real Classical

/-- Rider state and per-instance physics constants (physics.py, `Rider.__init__`). -/
@[ext]
structure Rider where
  x : ℝ
  y : ℝ
  vx : ℝ
  vy : ℝ
  crashed : Bool
  on_track : Bool
  gravity : ℝ
  friction : ℝ
  air_resistance : ℝ
  bounce : ℝ
  max_speed : ℝ
  crash_threshold : ℝ

/-- Constructor `Rider(x, y)`: initial forward velocity (1, 0) and the default
physics constants of `Rider.__init__`. -/
def Rider.new (x y : ℝ) : Rider :=
  { x := x
    y := y
    vx := 1.0
    vy := 0.0
    crashed := false
    on_track := false
    gravity := 0.4
    friction := 0.995
    air_resistance := 0.99
    bounce := 0.4
    max_speed := 12.0
    crash_threshold := 10.0 }

/-- Track state (track.py, `Track.__init__`): a point list, a list of index
pairs, and the cursor `last_point`. -/
@[ext]
structure Track where
  points : List (ℝ × ℝ)
  lines : List (ℕ × ℕ)
  last_point : Option ℕ

/-- Point lookup `track.points[i]`; the default value stands for the value of
an in-range access, which is the only case exercised by well-formed tracks. -/
noncomputable def Track.pt (t : Track) (i : ℕ) : ℝ × ℝ :=
  t.points.getD i (0, 0)

/-- Python's `track.points[i]` with its failure mode: an out-of-range
(non-negative) index raises `IndexError`, modelled as `none`. -/
noncomputable def Track.seg (t : Track) (li : ℕ × ℕ) : Option ((ℝ × ℝ) × (ℝ × ℝ)) :=
  match t.points.get? li.1, t.points.get? li.2 with
  | some p1, some p2 => some (p1, p2)
  | _, _ => none

/-- Method `Track.clear`: reset to the empty state. -/
def Track.clear (_t : Track) : Track :=
  { points := [], lines := [], last_point := none }

/-- The near-duplicate test of `Track.add_point`:
`abs(p[0] - x) < 2 and abs(p[1] - y) < 2`. -/
def nearPoint (x y : ℝ) (p : ℝ × ℝ) : Prop :=
  |p.1 - x| < 2 ∧ |p.2 - y| < 2

/-- The `for i, p in enumerate(self.points)` scan of `Track.add_point`:
index of the first point near `(x, y)`, starting the count at `i`. -/
noncomputable def findNear (x y : ℝ) : List (ℝ × ℝ) → ℕ → Option ℕ
  | [], _ => none
  | p :: ps, i => if nearPoint x y p then some i else findNear x y ps (i + 1)

/-- Method `Track.add_point(x, y)`: snap to the first existing point within the merge
tolerance and connect the cursor to it, otherwise append a new point and
connect the cursor to it (track.py lines 11-32). -/
noncomputable def Track.add_point (t : Track) (x y : ℝ) : Track :=
  match findNear x y t.points 0 with
  | some i =>
      let lines' :=
        match t.last_point with
        | some lp => if lp ≠ i then t.lines ++ [(lp, i)] else t.lines
        | none => t.lines
      { t with lines := lines', last_point := some i }
  | none =>
      let point_idx := t.points.length
      let lines' :=
        match t.last_point with
        | some lp => t.lines ++ [(lp, point_idx)]
        | none => t.lines
      { points := t.points ++ [(x, y)], lines := lines', last_point := some point_idx }

/-- Method `Rider.closest_point_on_line`: project the rider position on the segment's
line and clamp the parameter to [0, 1]; a zero-length segment returns `p1`. -/
noncomputable def Rider.closest_point_on_line (r : Rider) (p1 p2 : ℝ × ℝ) : ℝ × ℝ :=
  let dx := p2.1 - p1.1
  let dy := p2.2 - p1.2
  if dx = 0 ∧ dy = 0 then p1
  else
    let t := ((r.x - p1.1) * dx + (r.y - p1.2) * dy) / (dx * dx + dy * dy)
    let tc := max 0 (min 1 t)
    (p1.1 + tc * dx, p1.2 + tc * dy)

/-- Closest point of segment `li` of the track to the rider. -/
noncomputable def Rider.segClosest (r : Rider) (t : Track) (li : ℕ × ℕ) : ℝ × ℝ :=
  r.closest_point_on_line (t.pt li.1) (t.pt li.2)

/-- Euclidean distance from the rider to the closest point of segment `li`
(`dist` in `check_collision`). -/
noncomputable def Rider.segDist (r : Rider) (t : Track) (li : ℕ × ℕ) : ℝ :=
  Real.sqrt ((r.x - (r.segClosest t li).1) ^ 2 + (r.y - (r.segClosest t li).2) ^ 2)

/-- The result triple `(p1, p2, closest)` that `check_collision` stores for
segment `li`. -/
noncomputable def Rider.segPayload (r : Rider) (t : Track) (li : ℕ × ℕ) :
    (ℝ × ℝ) × (ℝ × ℝ) × (ℝ × ℝ) :=
  (t.pt li.1, t.pt li.2, r.segClosest t li)

/-- Method `Rider.check_collision`: scan all segments, keeping the closest one whose
distance is strictly below the running minimum, which starts at the contact
threshold 4.0 (physics.py lines 107-127). -/
noncomputable def Rider.check_collision (r : Rider) (t : Track) :
    Option ((ℝ × ℝ) × (ℝ × ℝ) × (ℝ × ℝ)) :=
  (t.lines.foldl
    (fun acc li =>
      if r.segDist t li < acc.1 then (r.segDist t li, some (r.segPayload t li)) else acc)
    ((4.0 : ℝ), none)).2

/-- The same scan with Python's indexing failure made explicit: the whole
query aborts with `none` as soon as a segment references an out-of-range
point index (the `IndexError` of `track.points[line_idx[0]]`). -/
noncomputable def Rider.check_collision_run (r : Rider) (t : Track) :
    Option (ℝ × Option ((ℝ × ℝ) × (ℝ × ℝ) × (ℝ × ℝ))) :=
  t.lines.foldl
    (fun acc li =>
      match acc with
      | none => none
      | some a =>
          match t.seg li with
          | none => none
          | some _ =>
              some (if r.segDist t li < a.1 then (r.segDist t li, some (r.segPayload t li)) else a))
    (some ((4.0 : ℝ), none))

/-- Segment length `math.sqrt(dx*dx + dy*dy)` (physics.py line 51). -/
noncomputable def segLen (p1 p2 : ℝ × ℝ) : ℝ :=
  Real.sqrt ((p2.1 - p1.1) * (p2.1 - p1.1) + (p2.2 - p1.2) * (p2.2 - p1.2))

/-- Unit tangent of a segment, from `p1` toward `p2` (physics.py lines 55-56). -/
noncomputable def segTangent (p1 p2 : ℝ × ℝ) : ℝ × ℝ :=
  ((p2.1 - p1.1) / segLen p1 p2, (p2.2 - p1.2) / segLen p1 p2)

/-- Unit normal: the tangent rotated 90 degrees, `(nx, ny) = (-ty, tx)`
(physics.py lines 59-60). -/
noncomputable def segNormal (p1 p2 : ℝ × ℝ) : ℝ × ℝ :=
  (-(segTangent p1 p2).2, (segTangent p1 p2).1)

/-- Integration part of `Rider.update` (physics.py lines 28-41): gravity, air
resistance when not on the track, position update, and the reset of
`on_track` that precedes the collision query. -/
noncomputable def Rider.integrate (r : Rider) (dt : ℝ) : Rider :=
  let vy1 := r.vy + r.gravity * dt
  let vx2 := if r.on_track then r.vx else r.vx * r.air_resistance
  let vy2 := if r.on_track then vy1 else vy1 * r.air_resistance
  { r with
    x := r.x + vx2 * dt
    y := r.y + vy2 * dt
    vx := vx2
    vy := vy2
    on_track := false }

/-- Speed clamp of `Rider.update` (physics.py lines 97-101). -/
noncomputable def Rider.clampSpeed (r : Rider) : Rider :=
  let speed := Real.sqrt (r.vx ^ 2 + r.vy ^ 2)
  if speed > r.max_speed then
    { r with vx := r.vx / speed * r.max_speed, vy := r.vy / speed * r.max_speed }
  else r

/-- Out-of-bounds check of `Rider.update` (physics.py lines 104-105). -/
noncomputable def Rider.checkBounds (r : Rider) : Rider :=
  if r.y > 100 ∨ r.y < -10 ∨ r.x < -10 ∨ r.x > 200 then { r with crashed := true } else r

/-- Contact resolution of `Rider.update` (physics.py lines 48-95), applied to
the integrated state with `on_track` already set: snap to the contact point,
crash on a violent inward normal velocity (skipping the speed clamp and the
bounds check), otherwise bounce, project on the tangent with friction, add
slope gravity, then clamp speed and check bounds.  A zero-length segment
skips the contact physics. -/
noncomputable def Rider.resolveContact (r : Rider) (p1 p2 cp : ℝ × ℝ) (dt : ℝ) : Rider :=
  if segLen p1 p2 > 0 then
    let tx := (segTangent p1 p2).1
    let ty := (segTangent p1 p2).2
    let nx := (segNormal p1 p2).1
    let ny := (segNormal p1 p2).2
    let r5 := { r with x := cp.1, y := cp.2 }
    let nv := r5.vx * nx + r5.vy * ny
    if nv < -r5.crash_threshold then { r5 with crashed := true, vx := 0, vy := 0 }
    else
      let vx6 := if nv < 0 then r5.vx - nv * nx * (1 + r5.bounce) else r5.vx
      let vy6 := if nv < 0 then r5.vy - nv * ny * (1 + r5.bounce) else r5.vy
      let tv := vx6 * tx + vy6 * ty
      let vx7 := tv * tx * r5.friction
      let vy7 := tv * ty * r5.friction
      let gs := r5.gravity * ty
      (({ r5 with vx := vx7 + gs * tx * dt, vy := vy7 + gs * ty * dt }).clampSpeed).checkBounds
  else (r.clampSpeed).checkBounds

/-- Method `Rider.update(track, dt)` (physics.py lines 23-105): a no-op when crashed,
otherwise integrate, query the collision resolver, resolve a contact if one
is found, clamp speed and check bounds. -/
noncomputable def Rider.update (r : Rider) (track : Track) (dt : ℝ) : Rider :=
  if r.crashed then r
  else
    let r3 := r.integrate dt
    match r3.check_collision track with
    | none => (r3.clampSpeed).checkBounds
    | some (p1, p2, cp) => ({ r3 with on_track := true }).resolveContact p1 p2 cp dt

/-- Method `Rider.velocity_magnitude`: the current speed. -/
noncomputable def Rider.velocity_magnitude (r : Rider) : ℝ :=
  Real.sqrt (r.vx ^ 2 + r.vy ^ 2)

/-- A whole run: fold `update` over a list of (track, dt) ticks. -/
noncomputable def Rider.updates (r : Rider) : List (Track × ℝ) → Rider
  | [] => r
  | p :: l => ((r.update p.1 p.2).updates l)

/-- Rider states reachable from some `Rider.new` by `update` ticks. -/
inductive Reachable : Rider → Prop
  | base (x y : ℝ) : Reachable (Rider.new x y)
  | step (r : Rider) (t : Track) (dt : ℝ) : Reachable r → Reachable (r.update t dt)

/-- Tracks reachable through the Track API: empty, `add_point`, `clear`. -/
inductive TrackReachable : Track → Prop
  | empty : TrackReachable { points := [], lines := [], last_point := none }
  | add (t : Track) (x y : ℝ) : TrackReachable t → TrackReachable (t.add_point x y)
  | clear (t : Track) : TrackReachable t → TrackReachable t.clear

/-- Index validity: every segment and the cursor reference existing points. -/
def Track.WF (t : Track) : Prop :=
  (∀ li ∈ t.lines, li.1 < t.points.length ∧ li.2 < t.points.length) ∧
  (∀ k, t.last_point = some k → k < t.points.length)

/-! ### Basic facts about the helper steps -/

theorem sqrt_from_sq {a b : ℝ} (hb : 0 ≤ b) (h : b ^ 2 = a) : Real.sqrt a = b := by
  rw [← h, Real.sqrt_sq hb]

@[simp] theorem Rider.clampSpeed_x (r : Rider) : (r.clampSpeed).x = r.x := by
  simp only [Rider.clampSpeed]; split <;> rfl

@[simp] theorem Rider.clampSpeed_y (r : Rider) : (r.clampSpeed).y = r.y := by
  simp only [Rider.clampSpeed]; split <;> rfl

@[simp] theorem Rider.clampSpeed_crashed (r : Rider) : (r.clampSpeed).crashed = r.crashed := by
  simp only [Rider.clampSpeed]; split <;> rfl

@[simp] theorem Rider.clampSpeed_on_track (r : Rider) : (r.clampSpeed).on_track = r.on_track := by
  simp only [Rider.clampSpeed]; split <;> rfl

@[simp] theorem Rider.clampSpeed_max_speed (r : Rider) : (r.clampSpeed).max_speed = r.max_speed := by
  simp only [Rider.clampSpeed]; split <;> rfl

@[simp] theorem Rider.checkBounds_vx (r : Rider) : (r.checkBounds).vx = r.vx := by
  simp only [Rider.checkBounds]; split <;> rfl

@[simp] theorem Rider.checkBounds_vy (r : Rider) : (r.checkBounds).vy = r.vy := by
  simp only [Rider.checkBounds]; split <;> rfl

@[simp] theorem Rider.checkBounds_on_track (r : Rider) : (r.checkBounds).on_track = r.on_track := by
  simp only [Rider.checkBounds]; split <;> rfl

@[simp] theorem Rider.checkBounds_max_speed (r : Rider) : (r.checkBounds).max_speed = r.max_speed := by
  simp only [Rider.checkBounds]; split <;> rfl

@[simp] theorem Rider.integrate_max_speed (r : Rider) (dt : ℝ) :
    (r.integrate dt).max_speed = r.max_speed := rfl

@[simp] theorem Rider.integrate_crash_threshold (r : Rider) (dt : ℝ) :
    (r.integrate dt).crash_threshold = r.crash_threshold := rfl

theorem Rider.resolveContact_max_speed (r : Rider) (p1 p2 cp : ℝ × ℝ) (dt : ℝ) :
    (r.resolveContact p1 p2 cp dt).max_speed = r.max_speed := by
  simp only [Rider.resolveContact]; split_ifs <;> simp

theorem Rider.update_max_speed (r : Rider) (t : Track) (dt : ℝ) :
    (r.update t dt).max_speed = r.max_speed := by
  simp only [Rider.update]
  split
  · rfl
  · split
    · simp
    · rw [Rider.resolveContact_max_speed]; rfl

/-! ### C2: crashed is absorbing -/

/-- C2: for a rider with `crashed = true`, `update` is a no-op — the whole
state (position, velocity, `on_track`, `crashed`) is unchanged — and so is
any sequence of subsequent `update` calls. -/
theorem crashed_update_no_op (r : Rider) (h : r.crashed = true) :
    (∀ t dt, r.update t dt = r) ∧ ∀ l, r.updates l = r := by
  have h1 : ∀ t dt, r.update t dt = r := by
    intro t dt; unfold Rider.update; rw [h]; rfl
  refine ⟨h1, ?_⟩
  intro l
  induction l with
  | nil => rfl
  | cons p l ih =>
      show (r.update p.1 p.2).updates l = r
      rw [h1 p.1 p.2]; exact ih

/-- Witness for C2 at a concrete crashed rider and a one-tick run. -/
theorem crashed_update_no_op_witness :
    Rider.updates { Rider.new 0 0 with crashed := true }
        [({ points := [], lines := [], last_point := none }, 1)]
      = { Rider.new 0 0 with crashed := true } :=
  (crashed_update_no_op { Rider.new 0 0 with crashed := true } rfl).2 _

/-! ### C1: the collision resolver returns the first globally closest segment -/

/-- Running strict-minimum fold, as in `check_collision`: either no element
beats the initial bound and the accumulator is returned unchanged, or the
result is the first element attaining the global minimum. -/
theorem foldl_min_first {α β : Type} (d : α → ℝ) (pl : α → β) :
    ∀ (l : List α) (m : ℝ) (b : Option β),
      (l.foldl (fun acc a => if d a < acc.1 then (d a, some (pl a)) else acc) (m, b) = (m, b)
          ∧ ∀ a ∈ l, m ≤ d a)
      ∨ ∃ j, ∃ hj : j < l.length,
          l.foldl (fun acc a => if d a < acc.1 then (d a, some (pl a)) else acc) (m, b)
              = (d (l.get ⟨j, hj⟩), some (pl (l.get ⟨j, hj⟩)))
            ∧ d (l.get ⟨j, hj⟩) < m
            ∧ (∀ k, ∀ hk : k < l.length, d (l.get ⟨j, hj⟩) ≤ d (l.get ⟨k, hk⟩))
            ∧ ∀ k, ∀ hk : k < l.length, k < j → d (l.get ⟨j, hj⟩) < d (l.get ⟨k, hk⟩) := by
  intro l
  induction l with
  | nil => intro m b; left; exact ⟨rfl, by simp⟩
  | cons a l ih =>
      intro m b
      rw [List.foldl_cons]
      by_cases h : d a < m
      · rw [if_pos h]
        rcases ih (d a) (some (pl a)) with ⟨heq, hall⟩ | ⟨j, hj, heq, hlt, hmin, hfirst⟩
        · right
          refine ⟨0, Nat.succ_pos _, by simpa using heq, by simpa using h, ?_, ?_⟩
          · intro k hk
            cases k with
            | zero => simp
            | succ k2 =>
                simp only [List.get_cons_zero, List.get_cons_succ]
                exact hall _ (List.get_mem l k2 _)
          · intro k hk hk0; omega
        · right
          refine ⟨j + 1, Nat.succ_lt_succ hj, ?_, ?_, ?_, ?_⟩
          · simpa using heq
          · simp only [List.get_cons_succ]; exact lt_trans hlt h
          · intro k hk
            cases k with
            | zero => simp only [List.get_cons_zero, List.get_cons_succ]; exact le_of_lt hlt
            | succ k2 =>
                simp only [List.get_cons_succ]
                exact hmin k2 (Nat.lt_of_succ_lt_succ hk)
          · intro k hk hkj
            cases k with
            | zero => simp only [List.get_cons_zero, List.get_cons_succ]; exact hlt
            | succ k2 =>
                simp only [List.get_cons_succ]
                exact hfirst k2 (Nat.lt_of_succ_lt_succ hk) (Nat.lt_of_succ_lt_succ hkj)
      · rw [if_neg h]
        rcases ih m b with ⟨heq, hall⟩ | ⟨j, hj, heq, hlt, hmin, hfirst⟩
        · left
          refine ⟨heq, ?_⟩
          intro x hx
          rcases List.mem_cons.1 hx with rfl | hx
          · exact le_of_not_lt h
          · exact hall x hx
        · right
          refine ⟨j + 1, Nat.succ_lt_succ hj, ?_, ?_, ?_, ?_⟩
          · simpa using heq
          · simpa using hlt
          · intro k hk
            cases k with
            | zero =>
                simp only [List.get_cons_zero, List.get_cons_succ]
                exact le_of_lt (lt_of_lt_of_le hlt (le_of_not_lt h))
            | succ k2 =>
                simp only [List.get_cons_succ]
                exact hmin k2 (Nat.lt_of_succ_lt_succ hk)
          · intro k hk hkj
            cases k with
            | zero =>
                simp only [List.get_cons_zero, List.get_cons_succ]
                exact lt_of_lt_of_le hlt (le_of_not_lt h)
            | succ k2 =>
                simp only [List.get_cons_succ]
                exact hfirst k2 (Nat.lt_of_succ_lt_succ hk) (Nat.lt_of_succ_lt_succ hkj)

/-- Resolver `check_collision` written through the per-segment distance and payload. -/
theorem check_collision_as_fold (r : Rider) (t : Track) :
    r.check_collision t
      = (t.lines.foldl
          (fun acc li =>
            if r.segDist t li < acc.1 then (r.segDist t li, some (r.segPayload t li)) else acc)
          ((4.0 : ℝ), none)).2 := rfl

theorem closest_example_mid :
    (Rider.new 5 3).closest_point_on_line (0, 0) (10, 0) = (5, 0) := by
  simp only [Rider.closest_point_on_line, Rider.new]
  norm_num

theorem closest_example_clamp :
    (Rider.new (-5) 0).closest_point_on_line (0, 0) (10, 0) = (0, 0) := by
  simp only [Rider.closest_point_on_line, Rider.new]
  norm_num

theorem segDist_example :
    (Rider.new 5 3).segDist
      { points := [(0, 0), (10, 0)], lines := [(0, 1)], last_point := none } (0, 1) = 3 := by
  have hc : (Rider.new 5 3).segClosest
      { points := [(0, 0), (10, 0)], lines := [(0, 1)], last_point := none } (0, 1) = (5, 0) := by
    rw [Rider.segClosest]
    have h0 : (Track.pt { points := [(0, 0), (10, 0)], lines := [(0, 1)], last_point := none }
        (0, 1).1) = ((0 : ℝ), (0 : ℝ)) := rfl
    have h1 : (Track.pt { points := [(0, 0), (10, 0)], lines := [(0, 1)], last_point := none }
        (0, 1).2) = ((10 : ℝ), (0 : ℝ)) := rfl
    rw [h0, h1, closest_example_mid]
  rw [Rider.segDist, hc]
  apply sqrt_from_sq (by norm_num : (0 : ℝ) ≤ 3)
  show (3 : ℝ) ^ 2 = ((Rider.new 5 3).x - 5) ^ 2 + ((Rider.new 5 3).y - 0) ^ 2
  show (3 : ℝ) ^ 2 = ((5 : ℝ) - 5) ^ 2 + ((3 : ℝ) - 0) ^ 2
  norm_num

/-- C1: `check_collision` returns `none` exactly when every segment's closest
point is at distance at least the contact threshold 4.0; otherwise it returns
the `(p1, p2, closest point)` triple of the first segment, in insertion
order, attaining the globally minimal distance, that distance being below
4.0 (a later segment wins only on strictly smaller distance).  The closest
point is the clamped projection: for the segment (0,0)-(10,0), the query
point (5, 3) projects to (5, 0) at distance 3, and (-5, 0) clamps to (0, 0). -/
theorem check_collision_correct (r : Rider) (t : Track) :
    (r.check_collision t = none ↔ ∀ li ∈ t.lines, 4 ≤ r.segDist t li)
    ∧ (∀ c, r.check_collision t = some c →
        ∃ j, ∃ hj : j < t.lines.length,
          c = r.segPayload t (t.lines.get ⟨j, hj⟩)
          ∧ r.segDist t (t.lines.get ⟨j, hj⟩) < 4
          ∧ (∀ k, ∀ hk : k < t.lines.length,
              r.segDist t (t.lines.get ⟨j, hj⟩) ≤ r.segDist t (t.lines.get ⟨k, hk⟩))
          ∧ ∀ k, ∀ hk : k < t.lines.length, k < j →
              r.segDist t (t.lines.get ⟨j, hj⟩) < r.segDist t (t.lines.get ⟨k, hk⟩))
    ∧ (Rider.new 5 3).closest_point_on_line (0, 0) (10, 0) = (5, 0)
    ∧ (Rider.new 5 3).segDist
        { points := [(0, 0), (10, 0)], lines := [(0, 1)], last_point := none } (0, 1) = 3
    ∧ (Rider.new (-5) 0).closest_point_on_line (0, 0) (10, 0) = (0, 0) := by
  have h40 : (4.0 : ℝ) = 4 := by norm_num
  rcases foldl_min_first (r.segDist t) (r.segPayload t) t.lines (4.0 : ℝ) none with
    ⟨heq, hall⟩ | ⟨j, hj, heq, hlt, hmin, hfirst⟩
  · have hnone : r.check_collision t = none := by
      rw [check_collision_as_fold, heq]
    refine ⟨⟨fun _ li hli => ?_, fun _ => hnone⟩, fun c hc => ?_, closest_example_mid,
      segDist_example, closest_example_clamp⟩
    · have := hall li hli; rw [h40] at this; exact this
    · rw [hnone] at hc; cases hc
  · have hsome : r.check_collision t = some (r.segPayload t (t.lines.get ⟨j, hj⟩)) := by
      rw [check_collision_as_fold, heq]
    refine ⟨⟨fun h => ?_, fun hge => ?_⟩, fun c hc => ?_, closest_example_mid,
      segDist_example, closest_example_clamp⟩
    · rw [hsome] at h; cases h
    · exfalso
      have h1 := hge (t.lines.get ⟨j, hj⟩) (List.get_mem t.lines j hj)
      rw [h40] at hlt; linarith
    · rw [hsome] at hc
      refine ⟨j, hj, (Option.some.inj hc).symm, ?_, hmin, hfirst⟩
      rw [h40] at hlt; exact hlt

/-- Witness for C1: on the one-segment track (0,0)-(10,0) with the rider at
(5, 3), the resolver reports a contact and the characterisation applies. -/
theorem check_collision_correct_witness :
    ∃ j, ∃ hj : j <
        (({ points := [(0, 0), (10, 0)], lines := [(0, 1)], last_point := none } : Track)).lines.length,
      ((0, 0), (10, 0), (5, 0))
          = (Rider.new 5 3).segPayload
              { points := [(0, 0), (10, 0)], lines := [(0, 1)], last_point := none }
              ((({ points := [(0, 0), (10, 0)], lines := [(0, 1)], last_point := none } : Track)).lines.get ⟨j, hj⟩)
        ∧ (Rider.new 5 3).segDist
            { points := [(0, 0), (10, 0)], lines := [(0, 1)], last_point := none }
            ((({ points := [(0, 0), (10, 0)], lines := [(0, 1)], last_point := none } : Track)).lines.get ⟨j, hj⟩) < 4
        ∧ (∀ k, ∀ hk : k <
            (({ points := [(0, 0), (10, 0)], lines := [(0, 1)], last_point := none } : Track)).lines.length,
            (Rider.new 5 3).segDist
                { points := [(0, 0), (10, 0)], lines := [(0, 1)], last_point := none }
                ((({ points := [(0, 0), (10, 0)], lines := [(0, 1)], last_point := none } : Track)).lines.get ⟨j, hj⟩)
              ≤ (Rider.new 5 3).segDist
                  { points := [(0, 0), (10, 0)], lines := [(0, 1)], last_point := none }
                  ((({ points := [(0, 0), (10, 0)], lines := [(0, 1)], last_point := none } : Track)).lines.get ⟨k, hk⟩))
        ∧ ∀ k, ∀ hk : k <
            (({ points := [(0, 0), (10, 0)], lines := [(0, 1)], last_point := none } : Track)).lines.length,
            k < j →
            (Rider.new 5 3).segDist
                { points := [(0, 0), (10, 0)], lines := [(0, 1)], last_point := none }
                ((({ points := [(0, 0), (10, 0)], lines := [(0, 1)], last_point := none } : Track)).lines.get ⟨j, hj⟩)
              < (Rider.new 5 3).segDist
                  { points := [(0, 0), (10, 0)], lines := [(0, 1)], last_point := none }
                  ((({ points := [(0, 0), (10, 0)], lines := [(0, 1)], last_point := none } : Track)).lines.get ⟨k, hk⟩) := by
  apply (check_collision_correct (Rider.new 5 3)
    { points := [(0, 0), (10, 0)], lines := [(0, 1)], last_point := none }).2.1
  rw [check_collision_as_fold]
  rw [List.foldl_cons, List.foldl_nil]
  rw [if_pos]
  · show some _ = some _
    rw [Rider.segPayload]
    have hc : (Rider.new 5 3).segClosest
        { points := [(0, 0), (10, 0)], lines := [(0, 1)], last_point := none } (0, 1) = (5, 0) := by
      rw [Rider.segClosest]
      exact closest_example_mid
    rw [hc]
    rfl
  · rw [segDist_example]; norm_num

/-! ### C3: speed cap invariant -/

theorem Rider.checkBounds_velocity (r : Rider) :
    (r.checkBounds).velocity_magnitude = r.velocity_magnitude := by
  rw [Rider.velocity_magnitude, Rider.velocity_magnitude, Rider.checkBounds_vx,
    Rider.checkBounds_vy]

theorem Rider.clampSpeed_velocity (r : Rider) (h : 0 ≤ r.max_speed) :
    (r.clampSpeed).velocity_magnitude ≤ r.max_speed := by
  rw [Rider.velocity_magnitude]
  simp only [Rider.clampSpeed]
  set s := Real.sqrt (r.vx ^ 2 + r.vy ^ 2) with hsdef
  split_ifs with hs
  · have hq : (0 : ℝ) ≤ r.vx ^ 2 + r.vy ^ 2 := by positivity
    have hs0 : 0 < s := lt_of_le_of_lt h hs
    have hsq : s ^ 2 = r.vx ^ 2 + r.vy ^ 2 := Real.sq_sqrt hq
    have hne : s ≠ 0 := ne_of_gt hs0
    have key : (r.vx / s * r.max_speed) ^ 2 + (r.vy / s * r.max_speed) ^ 2
        = r.max_speed ^ 2 := by
      have h1 : (r.vx / s * r.max_speed) ^ 2 + (r.vy / s * r.max_speed) ^ 2
          = (r.vx ^ 2 + r.vy ^ 2) * r.max_speed ^ 2 / s ^ 2 := by ring
      rw [h1, ← hsq, mul_comm, mul_div_assoc, div_self (pow_ne_zero 2 hne), mul_one]
    show Real.sqrt ((r.vx / s * r.max_speed) ^ 2 + (r.vy / s * r.max_speed) ^ 2) ≤ r.max_speed
    rw [key, Real.sqrt_sq h]
  · exact le_of_not_lt hs

theorem Rider.update_velocity_le (r : Rider) (t : Track) (dt : ℝ)
    (h0 : 0 ≤ r.max_speed) (hv : r.velocity_magnitude ≤ r.max_speed) :
    (r.update t dt).velocity_magnitude ≤ r.max_speed := by
  simp only [Rider.update]
  split
  · exact hv
  · split
    · rw [Rider.checkBounds_velocity]
      exact Rider.clampSpeed_velocity _ h0
    · simp only [Rider.resolveContact]
      split_ifs with h1 h2
      · rw [Rider.velocity_magnitude]
        show Real.sqrt ((0 : ℝ) ^ 2 + (0 : ℝ) ^ 2) ≤ r.max_speed
        rw [show ((0 : ℝ) ^ 2 + (0 : ℝ) ^ 2) = 0 by norm_num, Real.sqrt_zero]
        exact h0
      · rw [Rider.checkBounds_velocity]
        exact Rider.clampSpeed_velocity _ h0
      · rw [Rider.checkBounds_velocity]
        exact Rider.clampSpeed_velocity _ h0
      · rw [Rider.checkBounds_velocity]
        exact Rider.clampSpeed_velocity _ h0

/-- C3: every rider state reachable from `Rider.new` by `update` ticks has
post-update speed `velocity_magnitude` at most `max_speed`, which stays at
its default 12.0. -/
theorem speed_cap (r : Rider) (h : Reachable r) :
    r.velocity_magnitude ≤ r.max_speed ∧ r.max_speed = 12 := by
  induction h with
  | base x y =>
      constructor
      · rw [Rider.velocity_magnitude]
        show Real.sqrt ((1.0 : ℝ) ^ 2 + (0.0 : ℝ) ^ 2) ≤ (12.0 : ℝ)
        rw [show ((1.0 : ℝ) ^ 2 + (0.0 : ℝ) ^ 2) = 1 by norm_num, Real.sqrt_one]
        norm_num
      · show (12.0 : ℝ) = 12
        norm_num
  | step r t dt hr ih =>
      obtain ⟨ihv, ihm⟩ := ih
      have hms : (r.update t dt).max_speed = r.max_speed := Rider.update_max_speed r t dt
      refine ⟨?_, by rw [hms, ihm]⟩
      rw [hms]
      exact Rider.update_velocity_le r t dt (by rw [ihm]; norm_num) ihv

/-- Witness for C3 at the freshly constructed rider. -/
theorem speed_cap_witness :
    (Rider.new 0 0).velocity_magnitude ≤ (Rider.new 0 0).max_speed
      ∧ (Rider.new 0 0).max_speed = 12 :=
  speed_cap (Rider.new 0 0) (Reachable.base 0 0)

/-! ### A horizontal one-segment track and its contact geometry -/

/-- Track with the single horizontal segment from (100, 10) to (0, 10). -/
def c6Track : Track :=
  { points := [(100, 10), (0, 10)], lines := [(0, 1)], last_point := none }

theorem c6_len : segLen (100, 10) (0, 10) = 100 := by
  rw [segLen]
  apply sqrt_from_sq (by norm_num : (0 : ℝ) ≤ 100)
  norm_num

theorem c6_tangent : segTangent (100, 10) (0, 10) = (-1, 0) := by
  rw [segTangent, c6_len]
  norm_num

theorem c6_normal : segNormal (100, 10) (0, 10) = (0, -1) := by
  rw [segNormal, c6_tangent]
  norm_num

theorem c6_closest (r : Rider) (hx : r.x = 50) :
    r.closest_point_on_line (100, 10) (0, 10) = (50, 10) := by
  simp only [Rider.closest_point_on_line, hx]
  norm_num

theorem c6_segClosest (r : Rider) (hx : r.x = 50) :
    r.segClosest c6Track (0, 1) = (50, 10) := by
  rw [Rider.segClosest]
  have h0 : c6Track.pt (0, 1).1 = ((100 : ℝ), (10 : ℝ)) := rfl
  have h1 : c6Track.pt (0, 1).2 = ((0 : ℝ), (10 : ℝ)) := rfl
  rw [h0, h1, c6_closest r hx]

theorem c6_segDist (r : Rider) (hx : r.x = 50) :
    r.segDist c6Track (0, 1) = |r.y - 10| := by
  rw [Rider.segDist, c6_segClosest r hx, hx]
  rw [show ((50 : ℝ) - (50, 10).1) ^ 2 + (r.y - (50, 10).2) ^ 2 = (r.y - 10) ^ 2 by norm_num]
  exact Real.sqrt_sq_eq_abs _

theorem c6_check_none (r : Rider) (hx : r.x = 50) (hy : r.y ≤ 6) :
    r.check_collision c6Track = none := by
  rw [check_collision_as_fold]
  show (List.foldl _ ((4.0 : ℝ), none) [(0, 1)]).2 = none
  rw [List.foldl_cons, List.foldl_nil, if_neg]
  rw [c6_segDist r hx]
  have habs : |r.y - 10| = 10 - r.y := by
    rw [abs_of_nonpos (by linarith)]; ring
  rw [habs]
  norm_num
  linarith

theorem c6_check_some (r : Rider) (hx : r.x = 50) (hy1 : 6 < r.y) (hy2 : r.y < 14) :
    r.check_collision c6Track = some ((100, 10), (0, 10), (50, 10)) := by
  rw [check_collision_as_fold]
  show (List.foldl _ ((4.0 : ℝ), none) [(0, 1)]).2 = some ((100, 10), (0, 10), (50, 10))
  rw [List.foldl_cons, List.foldl_nil, if_pos]
  · show some (r.segPayload c6Track (0, 1)) = _
    rw [Rider.segPayload, c6_segClosest r hx]
    rfl
  · rw [c6_segDist r hx]
    rw [abs_lt]
    constructor <;> [linarith; linarith]

/-! ### C5: the crash branch ends the tick -/

/-- C5: on a tick that resolves a contact with a non-degenerate segment whose
signed normal velocity is below `-crash_threshold`, `update` stops at the
crash branch: the rider is snapped to the contact point with `crashed = true`
and zero velocity, and neither the speed clamp nor the bounds check touches
the state. -/
theorem crash_tick (r : Rider) (t : Track) (dt : ℝ) (p1 p2 cp : ℝ × ℝ)
    (hc : r.crashed = false)
    (hcol : (r.integrate dt).check_collision t = some (p1, p2, cp))
    (hlen : segLen p1 p2 > 0)
    (hnv : (r.integrate dt).vx * (segNormal p1 p2).1 + (r.integrate dt).vy * (segNormal p1 p2).2
        < -r.crash_threshold) :
    r.update t dt
      = { (r.integrate dt) with
          x := cp.1
          y := cp.2
          vx := 0
          vy := 0
          on_track := true
          crashed := true } := by
  simp only [Rider.update]
  rw [if_neg (by rw [hc]; exact Bool.false_ne_true)]
  rw [hcol]
  simp only [Rider.resolveContact]
  rw [if_pos hlen, if_pos]
  rw [Rider.integrate_crash_threshold]
  exact hnv

/-- Rider used in concrete crash scenarios: at (50, -2), falling at 12. -/
def crashRider : Rider := { Rider.new 50 (-2) with vx := 0, vy := 12 }

theorem crashRider_integrate_x : (crashRider.integrate 1).x = 50 := by
  simp only [Rider.integrate, crashRider, Rider.new]
  norm_num

theorem crashRider_integrate_y : (crashRider.integrate 1).y = 2569 / 250 := by
  simp only [Rider.integrate, crashRider, Rider.new]
  norm_num

theorem crashRider_integrate_vx : (crashRider.integrate 1).vx = 0 := by
  simp only [Rider.integrate, crashRider, Rider.new]
  norm_num

theorem crashRider_integrate_vy : (crashRider.integrate 1).vy = 3069 / 250 := by
  simp only [Rider.integrate, crashRider, Rider.new]
  norm_num

/-- Witness for C5: `crashRider` hits the horizontal segment of `c6Track`
with inward normal velocity -12.276 < -10 and the tick ends in the crash
branch. -/
theorem crash_tick_witness :
    crashRider.update c6Track 1
      = { (crashRider.integrate 1) with
          x := 50
          y := 10
          vx := 0
          vy := 0
          on_track := true
          crashed := true } := by
  apply crash_tick crashRider c6Track 1 (100, 10) (0, 10) (50, 10) rfl
  · apply c6_check_some _ crashRider_integrate_x
    · rw [crashRider_integrate_y]; norm_num
    · rw [crashRider_integrate_y]; norm_num
  · rw [c6_len]; norm_num
  · rw [c6_normal, crashRider_integrate_vx, crashRider_integrate_vy]
    show (0 : ℝ) * (0, -1).1 + 3069 / 250 * (0, -1).2 < -crashRider.crash_threshold
    show (0 : ℝ) * 0 + 3069 / 250 * (-1) < -(10.0 : ℝ)
    norm_num

/-! ### C6: free fall onto the horizontal segment -/

/-- Free-fall state above `c6Track`: x = 50, vx = 0, not crashed, airborne. -/
def ffState (y vy : ℝ) : Rider := { Rider.new 50 y with vx := 0, vy := vy }

/-- Landed rest state on `c6Track`. -/
def c6Landed : Rider := { Rider.new 50 10 with vx := 0, vy := 0, on_track := true }

theorem ffState_crashed (y vy : ℝ) : (ffState y vy).crashed = false := rfl

theorem Rider.clampSpeed_id (r : Rider) (h : Real.sqrt (r.vx ^ 2 + r.vy ^ 2) ≤ r.max_speed) :
    r.clampSpeed = r := by
  simp only [Rider.clampSpeed]
  rw [if_neg (not_lt.2 h)]

theorem Rider.checkBounds_id (r : Rider)
    (h : ¬(r.y > 100 ∨ r.y < -10 ∨ r.x < -10 ∨ r.x > 200)) : r.checkBounds = r := by
  simp only [Rider.checkBounds]
  rw [if_neg h]

theorem ffState_integrate (y vy : ℝ) :
    (ffState y vy).integrate 1
      = ffState (y + (vy + 2 / 5) * (99 / 100)) ((vy + 2 / 5) * (99 / 100)) := by
  simp only [Rider.integrate, ffState, Rider.new]
  norm_num

/-- One airborne tick of the free fall: gravity then air resistance, no
contact while the new height stays at most 6. -/
theorem ff_step (y vy : ℝ) (h1 : y + (vy + 2 / 5) * (99 / 100) ≤ 6)
    (h2 : -10 ≤ y + (vy + 2 / 5) * (99 / 100))
    (h3 : 0 ≤ (vy + 2 / 5) * (99 / 100))
    (h4 : (vy + 2 / 5) * (99 / 100) ≤ 12) :
    (ffState y vy).update c6Track 1
      = ffState (y + (vy + 2 / 5) * (99 / 100)) ((vy + 2 / 5) * (99 / 100)) := by
  simp only [Rider.update]
  rw [if_neg (by rw [ffState_crashed]; exact Bool.false_ne_true)]
  rw [ffState_integrate]
  rw [c6_check_none (ffState (y + (vy + 2 / 5) * (99 / 100)) ((vy + 2 / 5) * (99 / 100))) rfl h1]
  rw [Rider.clampSpeed_id]
  · apply Rider.checkBounds_id
    push_neg
    refine ⟨?_, ?_, ?_, ?_⟩
    · show y + (vy + 2 / 5) * (99 / 100) ≤ 100
      linarith
    · show (-10 : ℝ) ≤ y + (vy + 2 / 5) * (99 / 100)
      exact h2
    · show (-10 : ℝ) ≤ 50
      norm_num
    · show (50 : ℝ) ≤ 200
      norm_num
  · show Real.sqrt ((0 : ℝ) ^ 2 + ((vy + 2 / 5) * (99 / 100)) ^ 2) ≤ (12.0 : ℝ)
    rw [show ((0 : ℝ) ^ 2 + ((vy + 2 / 5) * (99 / 100)) ^ 2) = ((vy + 2 / 5) * (99 / 100)) ^ 2 by ring]
    rw [Real.sqrt_sq h3]
    norm_num
    linarith

/-- Contact tick: when the integrated state is a free-fall state at height in
(6, 14) with downward speed in (0, 10), the rider snaps to (50, 10), the
bounce and tangent projection cancel the whole velocity, and the tick ends in
the landed rest state. -/
theorem ff_land (r : Rider) (y vy : ℝ) (h1 : 6 < y) (h2 : y < 14)
    (h4 : vy < 10) (hcr : r.crashed = false) (hint : r.integrate 1 = ffState y vy) :
    r.update c6Track 1 = c6Landed := by
  simp only [Rider.update]
  rw [if_neg (by rw [hcr]; exact Bool.false_ne_true)]
  rw [hint]
  rw [c6_check_some (ffState y vy) rfl h1 h2]
  simp only [Rider.resolveContact, c6_tangent, c6_normal, c6_len, ffState, Rider.new]
  rw [if_pos (by norm_num : (100 : ℝ) > 0)]
  norm_num
  rw [if_neg (by push_neg; linarith : ¬ (10 : ℝ) < vy)]
  rw [Rider.clampSpeed_id]
  · rw [Rider.checkBounds_id]
    · norm_num [c6Landed, Rider.new]
    · norm_num
  · show Real.sqrt ((0 : ℝ) ^ 2 + (0 : ℝ) ^ 2) ≤ (12 : ℝ)
    rw [show ((0 : ℝ) ^ 2 + (0 : ℝ) ^ 2) = 0 by ring, Real.sqrt_zero]
    norm_num

/-- Initial state of the free-fall scenario: dropped from (50, -5), vx = 0. -/
def c6Rider : Rider := { Rider.new 50 (-5) with vx := 0 }

/-- The free-fall simulation: tick n of `update` on `c6Track` with dt = 1. -/
noncomputable def simN : ℕ → Rider
  | 0 => c6Rider
  | n + 1 => (simN n).update c6Track 1

/-- The rider of the free-fall scenario eventually crashes. -/
def c6Crashes : Prop := ∃ n, (simN n).crashed = true

theorem c6Rider_ff : simN 0 = ffState (-5) 0 := by
  show c6Rider = ffState (-5) 0
  norm_num [c6Rider, ffState, Rider.new]

theorem c6Landed_integrate : c6Landed.integrate 1 = ffState (52 / 5) (2 / 5) := by
  simp only [Rider.integrate, c6Landed, ffState, Rider.new]
  norm_num

/-- The landed rest state is a fixed point of `update`. -/
theorem c6_fixed : c6Landed.update c6Track 1 = c6Landed :=
  ff_land c6Landed (52 / 5) (2 / 5) (by norm_num) (by norm_num) (by norm_num) rfl
    c6Landed_integrate

theorem c6_sim1 : simN 1 = ffState (-1151 / 250) (99 / 250) := by
  show (simN 0).update c6Track 1 = _
  rw [c6Rider_ff]
  rw [ff_step (-5) 0 (by norm_num) (by norm_num) (by norm_num) (by norm_num)]
  congr 1 <;> norm_num

theorem c6_sim2 : simN 2 = ffState (-95399 / 25000) (19701 / 25000) := by
  show (simN 1).update c6Track 1 = _
  rw [c6_sim1]
  rw [ff_step (-1151 / 250) (99 / 250) (by norm_num) (by norm_num) (by norm_num) (by norm_num)]
  congr 1 <;> norm_num

theorem c6_sim3 : simN 3 = ffState (-6599501 / 2500000) (2940399 / 2500000) := by
  show (simN 2).update c6Track 1 = _
  rw [c6_sim2]
  rw [ff_step (-95399 / 25000) (19701 / 25000) (by norm_num) (by norm_num) (by norm_num) (by norm_num)]
  congr 1 <;> norm_num

theorem c6_sim4 : simN 4 = ffState (-269850599 / 250000000) (390099501 / 250000000) := by
  show (simN 3).update c6Track 1 = _
  rw [c6_sim3]
  rw [ff_step (-6599501 / 2500000) (2940399 / 2500000) (by norm_num) (by norm_num) (by norm_num) (by norm_num)]
  congr 1 <;> norm_num

theorem c6_sim5 : simN 5 = ffState (21534790699 / 25000000000) (48519850599 / 25000000000) := by
  show (simN 4).update c6Track 1 = _
  rw [c6_sim4]
  rw [ff_step (-269850599 / 250000000) (390099501 / 250000000) (by norm_num) (by norm_num) (by norm_num) (by norm_num)]
  congr 1 <;> norm_num

theorem c6_sim6 : simN 6 = ffState (7946944279201 / 2500000000000) (5793465209301 / 2500000000000) := by
  show (simN 5).update c6Track 1 = _
  rw [c6_sim5]
  rw [ff_step (21534790699 / 25000000000) (48519850599 / 25000000000) (by norm_num) (by norm_num) (by norm_num) (by norm_num)]
  congr 1 <;> norm_num

theorem c6_sim7 : simN 7 = ffState (1467247483640899 / 250000000000000) (672553055720799 / 250000000000000) := by
  show (simN 6).update c6Track 1 = _
  rw [c6_sim6]
  rw [ff_step (7946944279201 / 2500000000000) (5793465209301 / 2500000000000) (by norm_num) (by norm_num) (by norm_num) (by norm_num)]
  congr 1 <;> norm_num

theorem c6_sim8 : simN 8 = c6Landed := by
  show (simN 7).update c6Track 1 = _
  rw [c6_sim7]
  exact ff_land (ffState (1467247483640899 / 250000000000000) (672553055720799 / 250000000000000)) (223207500880449001 / 25000000000000000) (76482752516359101 / 25000000000000000)
    (by norm_num) (by norm_num) (by norm_num) rfl
    (by rw [ffState_integrate]; congr 1 <;> norm_num)

theorem c6_sim_ge (n : ℕ) : simN (8 + n) = c6Landed := by
  induction n with
  | zero => exact c6_sim8
  | succ k ih =>
      show (simN (8 + k)).update c6Track 1 = c6Landed
      rw [ih, c6_fixed]

theorem c6_crashed_false (n : ℕ) : (simN n).crashed = false := by
  rcases lt_or_ge n 8 with h | h
  · interval_cases n
    · rw [c6Rider_ff]; rfl
    · rw [c6_sim1]; rfl
    · rw [c6_sim2]; rfl
    · rw [c6_sim3]; rfl
    · rw [c6_sim4]; rfl
    · rw [c6_sim5]; rfl
    · rw [c6_sim6]; rfl
    · rw [c6_sim7]; rfl
  · obtain ⟨k, rfl⟩ : ∃ k, n = 8 + k := ⟨n - 8, by omega⟩
    rw [c6_sim_ge]
    rfl

/-- C6 (counterexample): the rider dropped from (50, -5) above the horizontal
segment at y = 10 never reaches a crashing tick — the fall is far too short
for the inward normal velocity to exceed the crash threshold. -/
theorem no_crash_from_low_drop : ¬c6Crashes := by
  rintro ⟨n, hn⟩
  rw [c6_crashed_false n] at hn
  cases hn

/-- C6 (amended): the rider dropped from (50, -5) stays airborne for 7 ticks,
first touches the track on tick 8 with inward normal speed about 3.06 — far
below `crash_threshold` = 10 — and lands: it snaps to (50, 10) with zeroed
velocity and `on_track = true`, stays there forever, and `crashed` is never
set. -/
theorem low_drop_lands :
    (∀ n < 8, (simN n).on_track = false)
    ∧ simN 8 = c6Landed
    ∧ (∀ n, simN (8 + n) = c6Landed)
    ∧ ∀ n, (simN n).crashed = false := by
  refine ⟨?_, c6_sim8, c6_sim_ge, c6_crashed_false⟩
  intro n h
  interval_cases n
  · rw [c6Rider_ff]; rfl
  · rw [c6_sim1]; rfl
  · rw [c6_sim2]; rfl
  · rw [c6_sim3]; rfl
  · rw [c6_sim4]; rfl
  · rw [c6_sim5]; rfl
  · rw [c6_sim6]; rfl
  · rw [c6_sim7]; rfl

/-! ### C8: on_track reflects the current tick's contact query -/

theorem Rider.resolveContact_on_track (r : Rider) (p1 p2 cp : ℝ × ℝ) (dt : ℝ) :
    (r.resolveContact p1 p2 cp dt).on_track = r.on_track := by
  simp only [Rider.resolveContact]
  split_ifs <;> simp

/-- C8 (amended): for a rider that is not crashed, `update` leaves
`on_track = true` exactly when the collision resolver, queried at the
integrated position, returns a contact; the crashed no-op keeps the stale
flag instead. -/
theorem on_track_iff_contact (r : Rider) (t : Track) (dt : ℝ) (h : r.crashed = false) :
    (r.update t dt).on_track = ((r.integrate dt).check_collision t).isSome := by
  simp only [Rider.update]
  rw [if_neg (by rw [h]; exact Bool.false_ne_true)]
  cases hcol : (r.integrate dt).check_collision t with
  | none =>
      simp only [Rider.checkBounds_on_track, Rider.clampSpeed_on_track, Option.isSome_none]
      rfl
  | some c =>
      obtain ⟨p1, p2, cp⟩ := c
      rw [Rider.resolveContact_on_track]
      rfl

/-- Witness for the amended C8 on a fresh rider over the empty track. -/
theorem on_track_iff_contact_witness :
    ((Rider.new 0 0).update { points := [], lines := [], last_point := none } 1).on_track
      = (((Rider.new 0 0).integrate 1).check_collision
          { points := [], lines := [], last_point := none }).isSome :=
  on_track_iff_contact (Rider.new 0 0) { points := [], lines := [], last_point := none } 1 rfl

/-- Crashed rider whose stale contact flag is still set. -/
def c8Rider : Rider := { Rider.new 0 0 with crashed := true, on_track := true }

/-- C8 (counterexample): after `update` on a crashed rider the flag
`on_track` is true even though the resolver found no contact during that
call (over the empty track it can find none), so "on_track iff a contact was
resolved this tick" fails for crashed riders. -/
theorem on_track_stale_after_crash :
    (c8Rider.update { points := [], lines := [], last_point := none } 1).on_track = true
      ∧ ((c8Rider.integrate 1).check_collision
          { points := [], lines := [], last_point := none }).isSome = false := by
  constructor
  · show c8Rider.on_track = true
    rfl
  · rfl

/-! ### C7: segment endpoint order -/

theorem clamp01_one_sub (t : ℝ) : max 0 (min 1 (1 - t)) = 1 - max 0 (min 1 t) := by
  simp only [min_def, max_def]
  split_ifs <;> linarith

/-- C7 (amended): reversing a segment's endpoints leaves the clamped
projection — hence the resolver's closest point and distance — unchanged,
and flips the sign of the tangent and of the normal, so the signed normal
velocity of any velocity vector is negated; contact detection is therefore
orientation-independent, while the sign-sensitive crash and bounce branches
of `update` are not. -/
theorem segment_reversal_geometry (r : Rider) (p1 p2 : ℝ × ℝ) :
    r.closest_point_on_line p2 p1 = r.closest_point_on_line p1 p2
    ∧ segLen p2 p1 = segLen p1 p2
    ∧ (segTangent p2 p1).1 = -(segTangent p1 p2).1
    ∧ (segTangent p2 p1).2 = -(segTangent p1 p2).2
    ∧ ∀ vx vy : ℝ,
        vx * (segNormal p2 p1).1 + vy * (segNormal p2 p1).2
          = -(vx * (segNormal p1 p2).1 + vy * (segNormal p1 p2).2) := by
  obtain ⟨a1, a2⟩ := p1
  obtain ⟨b1, b2⟩ := p2
  have hlen : segLen (b1, b2) (a1, a2) = segLen (a1, a2) (b1, b2) := by
    rw [segLen, segLen]
    congr 1
    ring
  have ht1 : (segTangent (b1, b2) (a1, a2)).1 = -(segTangent (a1, a2) (b1, b2)).1 := by
    rw [segTangent, segTangent, hlen]
    show (a1 - b1) / segLen (a1, a2) (b1, b2) = -((b1 - a1) / segLen (a1, a2) (b1, b2))
    ring
  have ht2 : (segTangent (b1, b2) (a1, a2)).2 = -(segTangent (a1, a2) (b1, b2)).2 := by
    rw [segTangent, segTangent, hlen]
    show (a2 - b2) / segLen (a1, a2) (b1, b2) = -((b2 - a2) / segLen (a1, a2) (b1, b2))
    ring
  refine ⟨?_, hlen, ht1, ht2, ?_⟩
  · simp only [Rider.closest_point_on_line]
    by_cases hd : b1 - a1 = 0 ∧ b2 - a2 = 0
    · rw [if_pos ⟨by linarith [hd.1], by linarith [hd.2]⟩, if_pos hd]
      obtain ⟨e1, e2⟩ := hd
      show ((b1 : ℝ), (b2 : ℝ)) = ((a1 : ℝ), (a2 : ℝ))
      rw [Prod.mk.injEq]
      constructor <;> linarith
    · have hd2 : ¬(a1 - b1 = 0 ∧ a2 - b2 = 0) := by
        intro hu
        exact hd ⟨by linarith [hu.1], by linarith [hu.2]⟩
      rw [if_neg hd2, if_neg hd]
      have hD0 : (b1 - a1) * (b1 - a1) + (b2 - a2) * (b2 - a2) ≠ 0 := by
        rcases not_and_or.1 hd with h | h
        · have h1 : 0 < (b1 - a1) * (b1 - a1) := mul_self_pos.2 h
          have h2 : 0 ≤ (b2 - a2) * (b2 - a2) := mul_self_nonneg _
          linarith
        · have h1 : 0 < (b2 - a2) * (b2 - a2) := mul_self_pos.2 h
          have h2 : 0 ≤ (b1 - a1) * (b1 - a1) := mul_self_nonneg _
          linarith
      have hDeq : (a1 - b1) * (a1 - b1) + (a2 - b2) * (a2 - b2)
          = (b1 - a1) * (b1 - a1) + (b2 - a2) * (b2 - a2) := by ring
      have hts : ((r.x - b1) * (a1 - b1) + (r.y - b2) * (a2 - b2))
            / ((a1 - b1) * (a1 - b1) + (a2 - b2) * (a2 - b2))
          = 1 - ((r.x - a1) * (b1 - a1) + (r.y - a2) * (b2 - a2))
            / ((b1 - a1) * (b1 - a1) + (b2 - a2) * (b2 - a2)) := by
        rw [hDeq]
        field_simp
        ring
      show ((b1 : ℝ) + max 0 (min 1 (((r.x - b1) * (a1 - b1) + (r.y - b2) * (a2 - b2))
            / ((a1 - b1) * (a1 - b1) + (a2 - b2) * (a2 - b2)))) * (a1 - b1), _) = _
      rw [hts, clamp01_one_sub]
      rw [Prod.mk.injEq]
      constructor <;> ring
  · intro vx vy
    simp only [segNormal]
    rw [ht1, ht2]
    ring

/-- Track `c6Track` with its single segment's endpoint pair reversed. -/
def c6TrackRev : Track :=
  { points := [(100, 10), (0, 10)], lines := [(1, 0)], last_point := none }

theorem fwd_len : segLen (0, 10) (100, 10) = 100 := by
  rw [segLen]
  apply sqrt_from_sq (by norm_num : (0 : ℝ) ≤ 100)
  norm_num

theorem fwd_tangent : segTangent (0, 10) (100, 10) = (1, 0) := by
  rw [segTangent, fwd_len]
  norm_num

theorem fwd_normal : segNormal (0, 10) (100, 10) = (0, 1) := by
  rw [segNormal, fwd_tangent]
  norm_num

theorem fwd_closest (r : Rider) (hx : r.x = 50) :
    r.closest_point_on_line (0, 10) (100, 10) = (50, 10) := by
  simp only [Rider.closest_point_on_line, hx]
  norm_num

theorem rev_segClosest (r : Rider) (hx : r.x = 50) :
    r.segClosest c6TrackRev (1, 0) = (50, 10) := by
  rw [Rider.segClosest]
  have h0 : c6TrackRev.pt (1, 0).1 = ((0 : ℝ), (10 : ℝ)) := rfl
  have h1 : c6TrackRev.pt (1, 0).2 = ((100 : ℝ), (10 : ℝ)) := rfl
  rw [h0, h1, fwd_closest r hx]

theorem rev_segDist (r : Rider) (hx : r.x = 50) :
    r.segDist c6TrackRev (1, 0) = |r.y - 10| := by
  rw [Rider.segDist, rev_segClosest r hx, hx]
  rw [show ((50 : ℝ) - (50, 10).1) ^ 2 + (r.y - (50, 10).2) ^ 2 = (r.y - 10) ^ 2 by norm_num]
  exact Real.sqrt_sq_eq_abs _

theorem rev_check_some (r : Rider) (hx : r.x = 50) (hy1 : 6 < r.y) (hy2 : r.y < 14) :
    r.check_collision c6TrackRev = some ((0, 10), (100, 10), (50, 10)) := by
  rw [check_collision_as_fold]
  show (List.foldl _ ((4.0 : ℝ), none) [(1, 0)]).2 = some ((0, 10), (100, 10), (50, 10))
  rw [List.foldl_cons, List.foldl_nil, if_pos]
  · show some (r.segPayload c6TrackRev (1, 0)) = _
    rw [Rider.segPayload, rev_segClosest r hx]
    rfl
  · rw [rev_segDist r hx]
    rw [abs_lt]
    constructor <;> [linarith; linarith]

/-- On the forward orientation the falling rider lands without crashing. -/
theorem fwd_land (r : Rider) (y vy : ℝ) (h1 : 6 < y) (h2 : y < 14)
    (h4 : -10 < vy) (hcr : r.crashed = false) (hint : r.integrate 1 = ffState y vy) :
    r.update c6TrackRev 1 = c6Landed := by
  simp only [Rider.update]
  rw [if_neg (by rw [hcr]; exact Bool.false_ne_true)]
  rw [hint]
  rw [rev_check_some (ffState y vy) rfl h1 h2]
  simp only [Rider.resolveContact, fwd_tangent, fwd_normal, fwd_len, ffState, Rider.new]
  rw [if_pos (by norm_num : (100 : ℝ) > 0)]
  norm_num
  rw [if_neg (by push_neg; linarith : ¬ vy < -10)]
  rw [Rider.clampSpeed_id]
  · rw [Rider.checkBounds_id]
    · norm_num [c6Landed, Rider.new]
    · norm_num
  · show Real.sqrt ((0 : ℝ) ^ 2 + (0 : ℝ) ^ 2) ≤ (12 : ℝ)
    rw [show ((0 : ℝ) ^ 2 + (0 : ℝ) ^ 2) = 0 by ring, Real.sqrt_zero]
    norm_num

theorem crashRider_integrate_eq : crashRider.integrate 1 = ffState (2569 / 250) (3069 / 250) := by
  simp only [Rider.integrate, crashRider, ffState, Rider.new]
  norm_num

theorem crashRider_c6_crashed : (crashRider.update c6Track 1).crashed = true := by
  simp only [Rider.update]
  rw [if_neg (by rw [show crashRider.crashed = false from rfl]; exact Bool.false_ne_true)]
  rw [crashRider_integrate_eq]
  rw [c6_check_some (ffState (2569 / 250) (3069 / 250)) rfl
    (by norm_num [ffState, Rider.new]) (by norm_num [ffState, Rider.new])]
  simp only [Rider.resolveContact, c6_tangent, c6_normal, ffState, Rider.new]
  rw [if_pos (by rw [c6_len]; norm_num)]
  norm_num

theorem crashRider_rev_landed : crashRider.update c6TrackRev 1 = c6Landed :=
  fwd_land crashRider (2569 / 250) (3069 / 250) (by norm_num) (by norm_num) (by norm_num)
    rfl crashRider_integrate_eq

/-- C7 (counterexample): the two tracks below hold the same points and the
same single segment with opposite endpoint orders; on the falling rider
`crashRider` one orientation crashes the rider while the other lands it, so
`update` is not invariant under reversing a segment. -/
theorem segment_orientation_matters :
    c6TrackRev.points = c6Track.points
    ∧ c6Track.lines = [(0, 1)]
    ∧ c6TrackRev.lines = [(1, 0)]
    ∧ (crashRider.update c6Track 1).crashed = true
    ∧ (crashRider.update c6TrackRev 1).crashed = false
    ∧ crashRider.update c6Track 1 ≠ crashRider.update c6TrackRev 1 := by
  have h1 : (crashRider.update c6Track 1).crashed = true := crashRider_c6_crashed
  have h2 : crashRider.update c6TrackRev 1 = c6Landed := crashRider_rev_landed
  refine ⟨rfl, rfl, rfl, h1, by rw [h2]; rfl, ?_⟩
  intro he
  rw [he, h2] at h1
  exact Bool.false_ne_true h1

/-! ### Facts about the add_point scan -/

theorem findNear_none (x y : ℝ) : ∀ (l : List (ℝ × ℝ)) (i : ℕ),
    findNear x y l i = none ↔ ∀ p ∈ l, ¬nearPoint x y p := by
  intro l
  induction l with
  | nil => intro i; simp [findNear]
  | cons p ps ih =>
      intro i
      simp only [findNear]
      by_cases h : nearPoint x y p
      · rw [if_pos h]
        simp [h]
      · rw [if_neg h]
        rw [ih (i + 1)]
        simp [h]

theorem findNear_some (x y : ℝ) : ∀ (l : List (ℝ × ℝ)) (i j : ℕ),
    findNear x y l i = some j →
    ∃ k, ∃ hk : k < l.length, j = i + k ∧ nearPoint x y (l.get ⟨k, hk⟩)
      ∧ ∀ m, ∀ hm : m < l.length, m < k → ¬nearPoint x y (l.get ⟨m, hm⟩) := by
  intro l
  induction l with
  | nil => intro i j h; simp [findNear] at h
  | cons p ps ih =>
      intro i j h
      simp only [findNear] at h
      by_cases hp : nearPoint x y p
      · rw [if_pos hp] at h
        obtain rfl : i = j := Option.some.inj h
        refine ⟨0, Nat.succ_pos _, by omega, by simpa using hp, ?_⟩
        intro m hm hm0
        exact absurd hm0 (Nat.not_lt_zero m)
      · rw [if_neg hp] at h
        obtain ⟨k, hk, hj, hnear, hmin⟩ := ih (i + 1) j h
        refine ⟨k + 1, Nat.succ_lt_succ hk, by omega, by simpa using hnear, ?_⟩
        intro m hm hmk
        cases m with
        | zero => simpa using hp
        | succ m2 =>
            have := hmin m2 (Nat.lt_of_succ_lt_succ hm) (Nat.lt_of_succ_lt_succ hmk)
            simpa using this

theorem findNear_append (x y : ℝ) : ∀ (l : List (ℝ × ℝ)) (i : ℕ),
    (∀ p ∈ l, ¬nearPoint x y p) →
    findNear x y (l ++ [(x, y)]) i = some (i + l.length) := by
  intro l
  induction l with
  | nil =>
      intro i _
      simp only [List.nil_append, findNear]
      rw [if_pos (show nearPoint x y (x, y) by rw [nearPoint]; norm_num)]
      simp
  | cons p ps ih =>
      intro i h
      simp only [List.cons_append, findNear]
      rw [if_neg (h p (List.mem_cons_self p ps))]
      show findNear x y (ps ++ [(x, y)]) (i + 1) = some (i + (p :: ps).length)
      rw [ih (i + 1) (fun q hq => h q (List.mem_cons_of_mem p hq))]
      congr 1
      simp [List.length_cons]
      omega

/-! ### C10: the merge always picks the smallest matching index -/

/-- C10: when some existing point is within the merge tolerance of (x, y),
`add_point` creates no point and moves the cursor to the matching point of
smallest index — the scan runs in insertion order and stops at the first
match — making ambiguous placements deterministic. -/
theorem add_point_merges_least (t : Track) (x y : ℝ)
    (h : ∃ p ∈ t.points, nearPoint x y p) :
    ∃ j, ∃ hj : j < t.points.length,
      (t.add_point x y).points = t.points
      ∧ (t.add_point x y).last_point = some j
      ∧ nearPoint x y (t.points.get ⟨j, hj⟩)
      ∧ ∀ m, ∀ hm : m < t.points.length, m < j → ¬nearPoint x y (t.points.get ⟨m, hm⟩) := by
  cases hf : findNear x y t.points 0 with
  | none =>
      exfalso
      obtain ⟨p, hp, hnp⟩ := h
      exact ((findNear_none x y t.points 0).1 hf) p hp hnp
  | some j =>
      obtain ⟨k, hk, hjk, hnear, hmin⟩ := findNear_some x y t.points 0 j hf
      obtain rfl : k = j := by omega
      have hap : (t.add_point x y).points = t.points
          ∧ (t.add_point x y).last_point = some k := by
        unfold Track.add_point
        rw [hf]
        exact ⟨rfl, rfl⟩
      exact ⟨k, hk, hap.1, hap.2, hnear, hmin⟩

/-- Witness for C10: with points (0,0) and (1,1), a placement at (1,1) is
within tolerance of both and merges with index 0, the earliest. -/
theorem add_point_merges_least_witness :
    ∃ j, ∃ hj : j < (Track.mk [((0 : ℝ), (0 : ℝ)), (1, 1)] [] (some 1)).points.length,
      ((Track.mk [((0 : ℝ), (0 : ℝ)), (1, 1)] [] (some 1)).add_point 1 1).points
          = (Track.mk [((0 : ℝ), (0 : ℝ)), (1, 1)] [] (some 1)).points
      ∧ ((Track.mk [((0 : ℝ), (0 : ℝ)), (1, 1)] [] (some 1)).add_point 1 1).last_point = some j
      ∧ nearPoint 1 1 ((Track.mk [((0 : ℝ), (0 : ℝ)), (1, 1)] [] (some 1)).points.get ⟨j, hj⟩)
      ∧ ∀ m, ∀ hm : m < (Track.mk [((0 : ℝ), (0 : ℝ)), (1, 1)] [] (some 1)).points.length,
          m < j → ¬nearPoint 1 1 ((Track.mk [((0 : ℝ), (0 : ℝ)), (1, 1)] [] (some 1)).points.get ⟨m, hm⟩) :=
  add_point_merges_least (Track.mk [((0 : ℝ), (0 : ℝ)), (1, 1)] [] (some 1)) 1 1
    ⟨(0, 0), by simp, by rw [nearPoint]; norm_num⟩

/-! ### C4: snap and chain -/

/-- C4 (counterexample): on an empty track, calling `add_point(5, 5)` twice
adds exactly one point and NO segment: the first call has no previous point
to connect, and the second call matches the point it just added (the cursor
already sits on it), so no segment is appended either. -/
theorem double_add_point_no_segment :
    ((((Track.mk [] [] none).add_point 5 5).add_point 5 5).points.length = 1
        ∧ (((Track.mk [] [] none).add_point 5 5).add_point 5 5).lines.length = 0)
      ∧ ¬(((Track.mk [] [] none).add_point 5 5).add_point 5 5).lines.length = 1 := by
  have h1 : (Track.mk [] [] none).add_point 5 5
      = Track.mk [((5 : ℝ), (5 : ℝ))] [] (some 0) := by
    unfold Track.add_point
    rw [show findNear 5 5 ([] : List (ℝ × ℝ)) 0 = none from rfl]
    rfl
  have hfn : findNear 5 5 [((5 : ℝ), (5 : ℝ))] 0 = some 0 := by
    show (if nearPoint 5 5 ((5 : ℝ), (5 : ℝ)) then some 0
        else findNear 5 5 [] (0 + 1)) = some 0
    rw [if_pos (show nearPoint 5 5 ((5 : ℝ), (5 : ℝ)) by rw [nearPoint]; norm_num)]
  have h2 : (Track.mk [((5 : ℝ), (5 : ℝ))] [] (some 0)).add_point 5 5
      = Track.mk [((5 : ℝ), (5 : ℝ))] [] (some 0) := by
    unfold Track.add_point
    rw [hfn]
    rfl
  rw [h1, h2]
  norm_num

/-- C4 (amended): when `add_point` finds a point within tolerance it adds no
point and moves the cursor to the matched index, but it appends a segment
only when a previously-active point exists and differs from the matched
index.  Consequently a double call with fresh coordinates adds exactly one
point, and exactly one segment — appended by the first call — when the track
had an active cursor; the second call changes nothing. -/
theorem add_point_snap_chain (t : Track) (x y : ℝ) :
    (∀ i, findNear x y t.points 0 = some i →
        t.add_point x y
          = Track.mk t.points
              (t.lines ++ (match t.last_point with
                | some lp => if lp ≠ i then [(lp, i)] else []
                | none => []))
              (some i))
    ∧ ((∀ p ∈ t.points, ¬nearPoint x y p) →
        (t.add_point x y).add_point x y
          = Track.mk (t.points ++ [(x, y)])
              (t.lines ++ (match t.last_point with
                | some lp => [(lp, t.points.length)]
                | none => []))
              (some t.points.length)) := by
  constructor
  · intro i hf
    unfold Track.add_point
    rw [hf]
    dsimp only
    rcases hlp : t.last_point with _ | lp
    · dsimp only
      simp
    · dsimp only
      by_cases hne : lp ≠ i
      · rw [if_pos hne, if_pos hne]
      · rw [if_neg hne, if_neg hne]
        simp
  · intro hall
    have hf1 : findNear x y t.points 0 = none := (findNear_none x y t.points 0).2 hall
    have h1 : t.add_point x y
        = Track.mk (t.points ++ [(x, y)])
            (t.lines ++ (match t.last_point with
              | some lp => [(lp, t.points.length)]
              | none => []))
            (some t.points.length) := by
      unfold Track.add_point
      rw [hf1]
      dsimp only
      rcases hlp : t.last_point with _ | lp
      · dsimp only
        simp
      · dsimp only
    rw [h1]
    have hf2 : findNear x y (t.points ++ [(x, y)]) 0 = some t.points.length := by
      rw [findNear_append x y t.points 0 hall]
      congr 1
      omega
    unfold Track.add_point
    rw [hf2]
    dsimp only
    rw [if_neg (by omega : ¬ t.points.length ≠ t.points.length)]

/-- Witness for the amended C4: from a one-point track with an active cursor,
the double call adds one point and the one connecting segment. -/
theorem add_point_snap_chain_witness :
    ((Track.mk [((0 : ℝ), (0 : ℝ))] [] (some 0)).add_point 5 5).add_point 5 5
      = Track.mk [((0 : ℝ), (0 : ℝ)), (5, 5)] [(0, 1)] (some 1) := by
  have h := (add_point_snap_chain (Track.mk [((0 : ℝ), (0 : ℝ))] [] (some 0)) 5 5).2
    (by
      intro p hp
      simp only [List.mem_singleton] at hp
      subst hp
      rw [nearPoint]
      norm_num)
  rw [h]
  rfl

/-! ### C9: malformed tracks and boundary validation -/

theorem Track.seg_of_lt (t : Track) (li : ℕ × ℕ) (h1 : li.1 < t.points.length)
    (h2 : li.2 < t.points.length) : t.seg li = some (t.pt li.1, t.pt li.2) := by
  rw [Track.seg]
  rw [List.get?_eq_get h1, List.get?_eq_get h2]
  rw [Track.pt, Track.pt]
  rw [List.getD_eq_getElem t.points (0, 0) h1, List.getD_eq_getElem t.points (0, 0) h2]
  rfl

theorem run_fold_ok (r : Rider) (t : Track) :
    ∀ l : List (ℕ × ℕ),
      (∀ li ∈ l, li.1 < t.points.length ∧ li.2 < t.points.length) →
      ∀ acc : ℝ × Option ((ℝ × ℝ) × (ℝ × ℝ) × (ℝ × ℝ)),
      l.foldl
          (fun acc li =>
            match acc with
            | none => none
            | some a =>
                match t.seg li with
                | none => none
                | some _ =>
                    some (if r.segDist t li < a.1
                      then (r.segDist t li, some (r.segPayload t li)) else a))
          (some acc)
        = some (l.foldl
            (fun acc li =>
              if r.segDist t li < acc.1 then (r.segDist t li, some (r.segPayload t li)) else acc)
            acc) := by
  intro l
  induction l with
  | nil => intro _ acc; rfl
  | cons a l ih =>
      intro h acc
      rw [List.foldl_cons, List.foldl_cons]
      have hseg : t.seg a = some (t.pt a.1, t.pt a.2) :=
        Track.seg_of_lt t a (h a (List.mem_cons_self a l)).1 (h a (List.mem_cons_self a l)).2
      simp only [hseg]
      exact ih (fun li hli => h li (List.mem_cons_of_mem a hli)) _

theorem Track.add_point_WF (t : Track) (x y : ℝ) (h : t.WF) : (t.add_point x y).WF := by
  obtain ⟨hl, hc⟩ := h
  cases hf : findNear x y t.points 0 with
  | some i =>
      have hi : i < t.points.length := by
        obtain ⟨k, hk, hik, _, _⟩ := findNear_some x y t.points 0 i hf
        omega
      unfold Track.add_point
      rw [hf]
      dsimp only
      rcases hlp : t.last_point with _ | lp
      · dsimp only
        exact ⟨hl, fun k hk2 => by cases hk2; exact hi⟩
      · dsimp only
        have hlp2 : lp < t.points.length := hc lp hlp
        by_cases hne : lp ≠ i
        · rw [if_pos hne]
          refine ⟨?_, fun k hk2 => by cases hk2; exact hi⟩
          intro li hli
          rcases List.mem_append.1 hli with hm | hm
          · exact hl li hm
          · rw [List.mem_singleton] at hm
            subst hm
            exact ⟨hlp2, hi⟩
        · rw [if_neg hne]
          exact ⟨hl, fun k hk2 => by cases hk2; exact hi⟩
  | none =>
      unfold Track.add_point
      rw [hf]
      dsimp only
      have hlen : (t.points ++ [(x, y)]).length = t.points.length + 1 := by
        simp
      rcases hlp : t.last_point with _ | lp
      · dsimp only
        refine ⟨?_, ?_⟩
        · intro li hli
          have h2 := hl li hli
          show li.1 < (t.points ++ [(x, y)]).length ∧ li.2 < (t.points ++ [(x, y)]).length
          rw [hlen]
          omega
        · intro k hk2
          cases hk2
          show t.points.length < (t.points ++ [(x, y)]).length
          rw [hlen]
          omega
      · dsimp only
        have hlp2 : lp < t.points.length := hc lp hlp
        refine ⟨?_, ?_⟩
        · intro li hli
          show li.1 < (t.points ++ [(x, y)]).length ∧ li.2 < (t.points ++ [(x, y)]).length
          rw [hlen]
          rcases List.mem_append.1 hli with hm | hm
          · have h2 := hl li hm
            omega
          · rw [List.mem_singleton] at hm
            subst hm
            omega
        · intro k hk2
          cases hk2
          show t.points.length < (t.points ++ [(x, y)]).length
          rw [hlen]
          omega

/-- C9 (amended): the Track API performs no validation and raises no error,
but it cannot produce a dangling segment: every track reachable through the
API (empty, `add_point`, `clear`) keeps all segment endpoints and the cursor
within the point list, so on such tracks the resolver's indexing — modelled
by `check_collision_run`, which aborts on an out-of-range index — always
completes. -/
theorem track_api_inbounds (t : Track) (h : TrackReachable t) :
    t.WF ∧ ∀ r : Rider, r.check_collision_run t ≠ none := by
  have hwf : t.WF := by
    induction h with
    | empty => exact ⟨fun li hli => (by cases hli), fun k hk => (by cases hk)⟩
    | add t x y _ ih => exact Track.add_point_WF t x y ih
    | clear t _ _ => exact ⟨fun li hli => (by cases hli), fun k hk => (by cases hk)⟩
  refine ⟨hwf, ?_⟩
  intro r
  rw [Rider.check_collision_run, run_fold_ok r t t.lines (fun li hli => hwf.1 li hli)]
  exact Option.some_ne_none _

/-- Witness for the amended C9 at a concrete API-built track and rider. -/
theorem track_api_inbounds_witness :
    ((Track.mk [] [] none).add_point 0 0).WF
      ∧ (Rider.new 0 0).check_collision_run ((Track.mk [] [] none).add_point 0 0) ≠ none := by
  have h := track_api_inbounds ((Track.mk [] [] none).add_point 0 0)
    (TrackReachable.add (Track.mk [] [] none) 0 0 TrackReachable.empty)
  exact ⟨h.1, h.2 (Rider.new 0 0)⟩

/-- A malformed track: one segment, zero points. -/
def badTrack : Track := Track.mk [] [(0, 1)] none

/-- C9 (counterexample): the malformed track is never rejected — it is an
ordinary value of the track state, and neither construction nor `add_point`
raises any error — and querying the resolver on it hits an out-of-range
point index (`check_collision_run` aborts), i.e. the failure surfaces at
query time, not at boundary-validation time. -/
theorem malformed_track_reaches_resolver :
    ¬ badTrack.WF ∧ (Rider.new 0 0).check_collision_run badTrack = none := by
  constructor
  · intro hwf
    have := hwf.1 (0, 1) (by rw [badTrack]; exact List.mem_singleton.2 rfl)
    rw [badTrack] at this
    simp at this
  · rfl
